import Mathlib

/-!
Verification of the token-accounting core of mini-ccstatus.

The C sources under src/ are shallowly embedded: machine integers
(uint64_t, uint32_t) become Nat with explicit bounds, doubles become a
finiteness flag plus an exact rational value, cJSON trees become an
inductive JSON value, a transcript file becomes the list of its lines
(each line either a parsed JSON value or none for a line that fails
cJSON parsing or is empty), and C functions returning Result types
become functions into Except.
-/

namespace MiniCcstatus

/-- UINT64_MAX. -/
def U64_MAX : Nat := 2 ^ 64 - 1

/-- UINT32_MAX. -/
def U32_MAX : Nat := 2 ^ 32 - 1

/-- Error codes from result.h (the subset reachable in the embedded code). -/
inductive MccsError where
  | outOfMemory
  | bufferTooSmall
  | fileNotFound
  | ioError
  | invalidJson
  | invalidFormat
  | overflow
  | invalidConversion
deriving DecidableEq, Repr

/-- A C double as the token code observes it: a finiteness flag (false for
NaN or infinity) and, when finite, its exact rational value.  Every finite
double is an exact rational, and all comparisons the code performs on
doubles are exact, so this embedding loses nothing the code can see. -/
structure CDouble where
  finite : Bool
  val : ℚ
deriving DecidableEq, Repr

/-- The value of the C expression (double)UINT64_MAX used in the guard of
safe_double_to_uint64: 2^64 - 1 is not representable in a double and
rounds (to nearest) up to exactly 2^64. -/
def CAST_U64_MAX_AS_DOUBLE : ℚ := 2 ^ 64

/-- safe_conv.c: safe_double_to_uint64.  Mirrors the three guards and the
truncating (toward zero) conversion; for a non-negative value truncation
is the floor.  Note the third guard compares against (double)UINT64_MAX,
which is 2^64, not UINT64_MAX. -/
def safe_double_to_uint64 (value : CDouble) : Except MccsError Nat :=
  if value.finite = false then .error MccsError.invalidConversion
  else if value.val < 0 then .error MccsError.invalidConversion
  else if CAST_U64_MAX_AS_DOUBLE < value.val then .error MccsError.invalidConversion
  else .ok value.val.floor.toNat

/-- safe_conv.c: safe_add_uint64.  The C guard `a > UINT64_MAX - b` is for
uint64 operands (both at most UINT64_MAX), where the subtraction cannot
wrap; Nat subtraction matches it there. -/
def safe_add_uint64 (a b : Nat) : Except MccsError Nat :=
  if U64_MAX - b < a then .error MccsError.overflow
  else .ok (a + b)

/-- safe_conv.c: safe_mul_uint64. -/
def safe_mul_uint64 (a b : Nat) : Except MccsError Nat :=
  if a = 0 ∨ b = 0 then .ok 0
  else if U64_MAX / b < a then .error MccsError.overflow
  else .ok (a * b)

/-- Modelled from the spec: struct token_counts (declared in types_struct.h,
which is not among the provided sources) — four unsigned 64-bit category
counters plus the derived total, exactly the five fields every provided
source file reads and writes. -/
structure TokenCounts where
  input_tokens : Nat
  output_tokens : Nat
  cache_creation_tokens : Nat
  cache_read_tokens : Nat
  total_tokens : Nat
deriving DecidableEq, Repr

/-- token_calculator.c: init_token_counts. -/
def init_token_counts : TokenCounts :=
  { input_tokens := 0, output_tokens := 0, cache_creation_tokens := 0
    cache_read_tokens := 0, total_tokens := 0 }

/-- token_calculator.c: calculate_total_tokens (the NULL-pointer guard is
dropped; the embedding passes values). -/
def calculate_total_tokens (tokens : TokenCounts) : Except MccsError Nat :=
  match safe_add_uint64 tokens.input_tokens tokens.output_tokens with
  | .error _ => .error MccsError.overflow
  | .ok sum1 =>
    match safe_add_uint64 sum1 tokens.cache_creation_tokens with
    | .error _ => .error MccsError.overflow
    | .ok sum2 =>
      match safe_add_uint64 sum2 tokens.cache_read_tokens with
      | .error _ => .error MccsError.overflow
      | .ok sum3 => .ok sum3

/-- token_calculator.c: calculate_percentage. -/
def calculate_percentage (tokens limit : Nat) (clamp : Bool) : Nat :=
  if limit = 0 then 0
  else
    match safe_mul_uint64 tokens 100 with
    | .error _ => if clamp then 100 else U32_MAX
    | .ok product =>
      let pct := product / limit
      if clamp ∧ 100 < pct then 100 else min pct U32_MAX

/-- A cJSON value as the token code observes it: number, string, object
(ordered field list, first match wins on lookup), or anything else
(null, boolean, array), which the code only ever type-tests. -/
inductive JVal where
  | num : CDouble → JVal
  | str : String → JVal
  | obj : List (String × JVal) → JVal
  | other : JVal

/-- First field with the given name, as cJSON_GetObjectItemCaseSensitive
finds it in an object's child list. -/
def getField : List (String × JVal) → String → Option JVal
  | [], _ => none
  | (k, v) :: rest, key => if k = key then some v else getField rest key

/-- cJSON_GetObjectItemCaseSensitive: a named lookup on a non-object
yields NULL (non-object nodes have no named children). -/
def getItem : JVal → String → Option JVal
  | JVal.obj fields, key => getField fields key
  | _, _ => none

def KEY_MESSAGE : String := "message"
def KEY_USAGE : String := "usage"
def KEY_ROLE : String := "role"
def KEY_INPUT : String := "input_tokens"
def KEY_OUTPUT : String := "output_tokens"
def KEY_CACHE_CREATION_RAW : String := "cache_creation_input_tokens"
def KEY_CACHE_READ_RAW : String := "cache_read_input_tokens"
def KEY_CACHE_CREATION_LEGACY : String := "cache_creation_tokens"
def KEY_CACHE_READ_LEGACY : String := "cache_read_tokens"
def ASSISTANT_ROLE : String := "assistant"
def USER_ROLE : String := "user"

/-- The `message` item of an entry, kept only when it is an object:
mirrors `message && cJSON_IsObject(message)`. -/
def getMessage (entry : JVal) : Option JVal :=
  match getItem entry KEY_MESSAGE with
  | some (JVal.obj fields) => some (JVal.obj fields)
  | _ => none

/-- Cache-creation item with the fallback naming convention, as read in
token_calculator.c: `cache_creation_input_tokens`, else
`cache_creation_tokens`. -/
def getCacheCreationItem (usage : JVal) : Option JVal :=
  match getItem usage KEY_CACHE_CREATION_RAW with
  | some v => some v
  | none => getItem usage KEY_CACHE_CREATION_LEGACY

/-- Cache-read item with the fallback naming convention. -/
def getCacheReadItem (usage : JVal) : Option JVal :=
  match getItem usage KEY_CACHE_READ_RAW with
  | some v => some v
  | none => getItem usage KEY_CACHE_READ_LEGACY

/-- One `if (item && cJSON_IsNumber(item))` accumulation block of
extract_tokens_from_usage: absent or non-numeric items are skipped,
conversion and addition failures propagate. -/
def accumTokenField (current : Nat) (item : Option JVal) : Except MccsError Nat :=
  match item with
  | some (JVal.num d) => do
    let v ← safe_double_to_uint64 d
    safe_add_uint64 current v
  | _ => .ok current

/-- token_calculator.c: extract_tokens_from_usage.  Errors with
invalidJson when usage is NULL or not an object. -/
def extract_tokens_from_usage (usage : Option JVal) (tokens : TokenCounts) :
    Except MccsError TokenCounts :=
  match usage with
  | some (JVal.obj fields) => do
    let u := JVal.obj fields
    let inp ← accumTokenField tokens.input_tokens (getItem u KEY_INPUT)
    let outp ← accumTokenField tokens.output_tokens (getItem u KEY_OUTPUT)
    let cc ← accumTokenField tokens.cache_creation_tokens (getCacheCreationItem u)
    let cr ← accumTokenField tokens.cache_read_tokens (getCacheReadItem u)
    pure { tokens with
            input_tokens := inp, output_tokens := outp
            cache_creation_tokens := cc, cache_read_tokens := cr }
  | _ => .error MccsError.invalidJson

/-- One transcript line: the parsed JSON value, or none for a line that is
empty (len <= 1) or fails cJSON parsing — the code skips both the same
way. -/
abbrev TranscriptLine := Option JVal

/-- A transcript file, as its list of lines. -/
abbrev Transcript := List TranscriptLine

/-- The getline loop of parse_session_tokens: lines without a parsed
entry or without a message object are skipped; for every message object
extract_tokens_from_usage runs on its `usage` item (which may be absent)
and any error aborts the scan. -/
def sessionScan : Transcript → TokenCounts → Except MccsError TokenCounts
  | [], tokens => .ok tokens
  | line :: rest, tokens =>
    match line with
    | none => sessionScan rest tokens
    | some entry =>
      match getMessage entry with
      | none => sessionScan rest tokens
      | some msg =>
        match extract_tokens_from_usage (getItem msg KEY_USAGE) tokens with
        | .error e => .error e
        | .ok tokens2 => sessionScan rest tokens2

/-- token_calculator.c: parse_session_tokens on an opened transcript (the
fopen failure path, MCCS_ERR_FILE_NOT_FOUND, is outside the content
model). -/
def parse_session_tokens (file : Transcript) : Except MccsError TokenCounts :=
  match sessionScan file init_token_counts with
  | .error e => .error e
  | .ok t =>
    match calculate_total_tokens t with
    | .error e => .error e
    | .ok total => .ok { t with total_tokens := total }

/-- Role test on a message object: `role && cJSON_IsString(role)` and a
strcmp with "assistant". -/
def isAssistantRole (msg : JVal) : Bool :=
  match getItem msg KEY_ROLE with
  | some (JVal.str r) => r == ASSISTANT_ROLE
  | _ => false

/-- Entry-level test used while scanning for the last assistant line in
count_context_tokens: the entry has a message object whose role is the
string "assistant" (the usage object is not consulted here). -/
def isAssistantEntry (entry : JVal) : Bool :=
  match getMessage entry with
  | some msg => isAssistantRole msg
  | none => false

/-- One `if (IS_OK(...))`-guarded accumulation of the context count:
conversion or addition failures leave the running value unchanged instead
of propagating. -/
def softAccum (current : Nat) (item : Option JVal) : Nat :=
  match item with
  | some (JVal.num d) =>
    match safe_double_to_uint64 d with
    | .ok v =>
      match safe_add_uint64 current v with
      | .ok s => s
      | .error _ => current
    | .error _ => current
  | _ => current

/-- The context sum a usage object contributes: input, cache-creation and
cache-read items (with the fallback naming), output excluded; zero when
usage is absent or not an object.  This is both the final-line section of
count_context_tokens (which guards `usage && cJSON_IsObject(usage)`) and
the per-line total_context of parse_tokens_single_pass (which only guards
`usage`, but named lookups on a non-object yield NULL, so a non-object
usage also sums to zero there). -/
def usageContextSum (usage : Option JVal) : Nat :=
  match usage with
  | some (JVal.obj fields) =>
    let u := JVal.obj fields
    softAccum (softAccum (softAccum 0 (getItem u KEY_INPUT))
      (getCacheCreationItem u)) (getCacheReadItem u)
  | _ => 0

/-- Context tokens of one saved transcript entry, as the tail section of
count_context_tokens re-parses it: message-object guard, then the usage
context sum. -/
def entryContextTokens (entry : JVal) : Nat :=
  match getMessage entry with
  | some msg => usageContextSum (getItem msg KEY_USAGE)
  | none => 0

/-- The getline loop of count_context_tokens: remember the most recent
parsed line whose message object has role "assistant" (usage is not
required at this point).  Saving the raw line and re-parsing it later is
modelled by keeping the parsed entry, which parsing reproduces. -/
def lastAssistantScan : Transcript → Option JVal → Option JVal
  | [], acc => acc
  | line :: rest, acc =>
    lastAssistantScan rest
      (match line with
       | some entry => if isAssistantEntry entry then some entry else acc
       | none => acc)

/-- token_calculator.c: count_context_tokens on an opened transcript.
With no assistant line the result is Ok 0; with one, the saved line's
context sum (itself Ok even when fields are missing). -/
def count_context_tokens (file : Transcript) : Except MccsError Nat :=
  match lastAssistantScan file none with
  | some entry => .ok (entryContextTokens entry)
  | none => .ok 0

/-- Loop state of parse_tokens_single_pass: the running session counters
plus last_assistant_input and found_assistant. -/
structure SinglePassState where
  tokens : TokenCounts
  lastAssistantCtx : Nat
  foundAssistant : Bool
deriving DecidableEq, Repr

/-- The getline loop of parse_tokens_single_pass.  For every message
object: if session output is wanted and usage is non-NULL, run
extract_tokens_from_usage (errors abort); if context output is wanted,
the role is "assistant" and usage is non-NULL, compute the line's context
sum and record it only when strictly positive. -/
def singlePassScan (wantSession wantContext : Bool) :
    Transcript → SinglePassState → Except MccsError SinglePassState
  | [], st => .ok st
  | line :: rest, st =>
    match line with
    | none => singlePassScan wantSession wantContext rest st
    | some entry =>
      match getMessage entry with
      | none => singlePassScan wantSession wantContext rest st
      | some msg =>
        let usage := getItem msg KEY_USAGE
        let afterSession : Except MccsError TokenCounts :=
          if wantSession && usage.isSome then
            extract_tokens_from_usage usage st.tokens
          else .ok st.tokens
        match afterSession with
        | .error e => .error e
        | .ok tokens2 =>
          let st2 : SinglePassState :=
            if wantContext && isAssistantRole msg && usage.isSome then
              let totalContext := usageContextSum usage
              if 0 < totalContext then
                { tokens := tokens2, lastAssistantCtx := totalContext
                  foundAssistant := true }
              else { st with tokens := tokens2 }
            else { st with tokens := tokens2 }
          singlePassScan wantSession wantContext rest st2

/-- token_calculator.c: parse_tokens_single_pass on an opened transcript.
The two want flags stand for the non-NULLness of the two output pointers;
the outputs are returned as options.  With neither output requested the
function returns Ok before touching the file. -/
def parse_tokens_single_pass (file : Transcript)
    (wantSession wantContext : Bool) :
    Except MccsError (Option TokenCounts × Option Nat) :=
  if wantSession = false ∧ wantContext = false then .ok (none, none)
  else
    match singlePassScan wantSession wantContext file
      { tokens := init_token_counts, lastAssistantCtx := 0, foundAssistant := false } with
    | .error e => .error e
    | .ok st =>
      let contextOut : Option Nat :=
        if wantContext then some (if st.foundAssistant then st.lastAssistantCtx else 0)
        else none
      if wantSession then
        match calculate_total_tokens st.tokens with
        | .error e => .error e
        | .ok total => .ok (some { st.tokens with total_tokens := total }, contextOut)
      else .ok (none, contextOut)

/-- cache.h: CACHE_MAGIC 0xCCCC0002. -/
def CACHE_MAGIC : Nat := 0xCCCC0002

/-- constants.h: CACHE_MAX_AGE_S, seconds. -/
def CACHE_MAX_AGE_S : Int := 60

/-- cache.c: CACHE_LOCK_TIMEOUT_MS. -/
def CACHE_LOCK_TIMEOUT_MS : Nat := 2000

/-- cache.c: CACHE_LOCK_INTERVAL_MS. -/
def CACHE_LOCK_INTERVAL_MS : Nat := 50

/-- cache.c: CACHE_HASH_FNV_OFFSET, the literal 1469598103934665603ULL as
written in the source. -/
def CACHE_HASH_FNV_OFFSET : Nat := 1469598103934665603

/-- cache.c: CACHE_HASH_FNV_PRIME. -/
def CACHE_HASH_FNV_PRIME : Nat := 1099511628211

/-- Modelled from the spec: struct token_cache (declared in
types_struct.h, which is not among the provided sources) — magic, a
signed 64-bit last-update timestamp, the two bounded identity strings,
the session TokenCounts, the context TokenCounts block and the stored
transcript byte size, exactly the fields cache.c and main.c access. -/
structure TokenCache where
  magic : Nat
  last_update_time : Int
  session_id : String
  project_dir : String
  session_tokens : TokenCounts
  context_tokens : TokenCounts
  transcript_file_size : Nat
deriving DecidableEq, Repr

/-- The all-zero token_cache produced by `struct token_cache cache = {0}`. -/
def zeroTokenCache : TokenCache :=
  { magic := 0, last_update_time := 0, session_id := "", project_dir := ""
    session_tokens := init_token_counts, context_tokens := init_token_counts
    transcript_file_size := 0 }

/-- cache.c: get_file_size, over an abstract file system mapping a path
to its byte size (none when stat fails): empty path, a failing stat and a
failing size conversion all give 0. -/
def get_file_size (fs : String → Option Nat) (path : String) : Nat :=
  if path = "" then 0
  else
    match fs path with
    | some size => size
    | none => 0

/-- cache.c: is_cache_valid at time `now` (the record pointer is a value
here; the NULL-record guard is dropped).  The identifier comparisons run
only when the caller supplies the identifier, as in C where a NULL
session_id or project_dir skips its strcmp. -/
def is_cache_valid (cache : TokenCache) (session_id : Option String)
    (project_dir : Option String) (now : Int) : Bool :=
  if cache.magic ≠ CACHE_MAGIC then false
  else if (match session_id with
           | some s => cache.session_id != s
           | none => false : Bool) then false
  else if (match project_dir with
           | some p => cache.project_dir != p
           | none => false : Bool) then false
  else if CACHE_MAX_AGE_S < now - cache.last_update_time then false
  else true

/-- cache.c: should_refresh_cache at time `now` over the abstract file
system. -/
def should_refresh_cache (cache : TokenCache) (session_id : Option String)
    (project_dir : Option String) (transcript_path : String)
    (now : Int) (fs : String → Option Nat) : Bool :=
  if is_cache_valid cache session_id project_dir now = false then true
  else if get_file_size fs transcript_path ≠ cache.transcript_file_size then true
  else false

/-- What one flock(fd, op | LOCK_NB) attempt can report: success, a held
lock (EWOULDBLOCK/EAGAIN), or any other errno. -/
inductive FlockResp where
  | success
  | wouldblock
  | fatal
deriving DecidableEq, Repr

/-- Result of acquire_lock_with_timeout together with the number of flock
attempts it made. -/
structure LockAttempt where
  outcome : Except MccsError Unit
  attempts : Nat
deriving Repr

/-- The polling loop of acquire_lock_with_timeout, indexed by the number
of sleeps still allowed before `waited_ms >= timeout_ms` holds.  The nth
flock attempt is answered by `oracle n`. -/
def acquireGo (oracle : Nat → FlockResp) (attempt : Nat) : Nat → LockAttempt
  | 0 =>
    match oracle attempt with
    | .success => { outcome := .ok (), attempts := attempt + 1 }
    | .fatal => { outcome := .error MccsError.ioError, attempts := attempt + 1 }
    | .wouldblock => { outcome := .error MccsError.ioError, attempts := attempt + 1 }
  | r + 1 =>
    match oracle attempt with
    | .success => { outcome := .ok (), attempts := attempt + 1 }
    | .fatal => { outcome := .error MccsError.ioError, attempts := attempt + 1 }
    | .wouldblock => acquireGo oracle (attempt + 1) r

/-- cache.c: acquire_lock_with_timeout.  waited_ms takes the values
0, 50, 100, ... and the loop gives up at the first check with
waited_ms >= timeout_ms, i.e. after ceil(timeout/interval) sleeps; the
loop is re-indexed by that count, which the C code reaches by bounded
50ms increments. -/
def acquire_lock_with_timeout (oracle : Nat → FlockResp)
    (timeout_ms : Nat) : LockAttempt :=
  acquireGo oracle 0
    ((timeout_ms + CACHE_LOCK_INTERVAL_MS - 1) / CACHE_LOCK_INTERVAL_MS)

/-- Lower-case hex digit, as printf %x renders one nibble. -/
def hexChar (n : Nat) : Char :=
  if n < 10 then Char.ofNat (48 + n) else Char.ofNat (87 + n)

/-- The k low nibbles of n as zero-padded big-endian hex digits. -/
def hexDigits : Nat → Nat → List Char
  | 0, _ => []
  | k + 1, n => hexDigits k (n / 16) ++ [hexChar (n % 16)]

/-- snprintf "%016llx": exactly 16 zero-padded lower-case hex digits. -/
def hex16 (n : Nat) : String := String.mk (hexDigits 16 n)

/-- One iteration of the hash loop in hash_session_id: XOR in the byte,
multiply by the prime, both in wrapping uint64 arithmetic. -/
def fnvStep (hash byte : Nat) : Nat :=
  ((hash ^^^ byte) * CACHE_HASH_FNV_PRIME) % 2 ^ 64

/-- The byte loop of hash_session_id over the identifier's bytes. -/
def fnvLoop : List Nat → Nat → Nat
  | [], hash => hash
  | b :: rest, hash => fnvLoop rest (fnvStep hash b)

/-- cache.c: hash_session_id over the identifier's byte list (C iterates
the NUL-terminated bytes): NULL or empty gives the fixed fallback key,
otherwise the 16-hex-digit rendering of the hash seeded with
CACHE_HASH_FNV_OFFSET.  The output-buffer-size guard is dropped; the
caller passes a large enough buffer. -/
def hash_session_id (session_id : Option (List Nat)) : String :=
  match session_id with
  | none => "default"
  | some [] => "default"
  | some bytes => hex16 (fnvLoop bytes CACHE_HASH_FNV_OFFSET)

/-- The display-relevant outputs of the token section of
mccs_process_json: the two statistics, each tagged with its
"successfully parsed" flag. -/
structure TokenFlowOutcome where
  session_tokens : TokenCounts
  session_tokens_parsed : Bool
  context_tokens : Nat
  context_tokens_parsed : Bool
deriving DecidableEq, Repr

/-- main.c, mccs_process_json lines 134-214: the token-statistics path.
Inputs: whether load_mccs_paths succeeded and gave a non-empty transcript
path, the two derived need flags (each an OR of display options, lines
121-132), the load_cache result, the identifiers and clock feeding
should_refresh_cache, the abstract file system, and the transcript
content.  The write-back of the refreshed record (lines 189-212) is
dropped: its result is discarded with (void) and no displayed output
reads it. -/
def mccs_token_path (hasPaths : Bool) (transcript_path : String)
    (needsSession needsContext : Bool)
    (cacheLoad : Except MccsError TokenCache)
    (sessionId projectDir : String) (now : Int)
    (fs : String → Option Nat) (file : Transcript) : TokenFlowOutcome :=
  let start : TokenFlowOutcome :=
    { session_tokens := init_token_counts, session_tokens_parsed := false
      context_tokens := 0, context_tokens_parsed := false }
  if hasPaths && transcript_path != "" && (needsSession || needsContext) then
    let cacheLoaded := cacheLoad.isOk
    let cache : TokenCache :=
      match cacheLoad with
      | .ok c => c
      | .error _ => zeroTokenCache
    let shouldRefresh :=
      should_refresh_cache cache (some sessionId) (some projectDir)
        transcript_path now fs
    let needsRefresh := !cacheLoaded || shouldRefresh
    if cacheLoaded && !needsRefresh then
      { session_tokens := cache.session_tokens, session_tokens_parsed := true
        context_tokens := cache.context_tokens.total_tokens
        context_tokens_parsed := 0 < cache.context_tokens.total_tokens }
    else
      if needsSession && needsContext then
        match parse_tokens_single_pass file true true with
        | .ok (some st, some ctx) =>
          { session_tokens := st, session_tokens_parsed := true
            context_tokens := ctx, context_tokens_parsed := 0 < ctx }
        | _ => start
      else
        let afterSession : TokenCounts × Bool :=
          if needsSession then
            match parse_session_tokens file with
            | .ok t => (t, true)
            | .error _ => (init_token_counts, false)
          else (init_token_counts, false)
        let afterContext : Nat × Bool :=
          if needsContext then
            match count_context_tokens file with
            | .ok c => (c, 0 < c)
            | .error _ => (0, false)
          else (0, false)
        { session_tokens := afterSession.1, session_tokens_parsed := afterSession.2
          context_tokens := afterContext.1, context_tokens_parsed := afterContext.2 }
  else start

/-!
Specification-side definitions.  Each is written from the words of a
claim (or of the spec sentence behind it), to be compared with the
code-derived definitions above; none of them is used inside a
code-derived definition.
-/

/-- The most recent parsed line whose message role is "assistant",
written as a search from the end of the file. -/
def mostRecentAssistant : Transcript → Option JVal
  | [] => none
  | line :: rest =>
    match mostRecentAssistant rest with
    | some e => some e
    | none =>
      match line with
      | some entry => if isAssistantEntry entry then some entry else none
      | none => none

/-- The most recent parsed line whose message role is "assistant" and
whose usage item is present, written from the words of claim C4
("whose message.role equals assistant and whose usage object is
present"). -/
def mostRecentAssistantWithUsage : Transcript → Option JVal
  | [] => none
  | line :: rest =>
    match mostRecentAssistantWithUsage rest with
    | some e => some e
    | none =>
      match line with
      | some entry =>
        match getMessage entry with
        | some msg =>
          if isAssistantRole msg && (getItem msg KEY_USAGE).isSome then some entry
          else none
        | none => none
      | none => none

/-- Claim C4 read literally: the context count derived from the most
recent assistant-with-usage line, zero when there is none. -/
def count_context_tokens_claimC4 (file : Transcript) : Except MccsError Nat :=
  match mostRecentAssistantWithUsage file with
  | some entry => .ok (entryContextTokens entry)
  | none => .ok 0

/-- The most recent line that is assistant, has usage, and whose context
sum is strictly positive, together with that sum — the quantity the
single-pass scan actually remembers. -/
def mostRecentPositiveCtx : Transcript → Option Nat
  | [] => none
  | line :: rest =>
    match mostRecentPositiveCtx rest with
    | some c => some c
    | none =>
      match line with
      | some entry =>
        match getMessage entry with
        | some msg =>
          if isAssistantRole msg && (getItem msg KEY_USAGE).isSome
              && decide (0 < usageContextSum (getItem msg KEY_USAGE)) then
            some (usageContextSum (getItem msg KEY_USAGE))
          else none
        | none => none
      | none => none

/-- The context part of the single-pass state machine, in isolation:
fold of the per-line recording rule over the file. -/
def spCtxStep (st : Nat × Bool) (line : TranscriptLine) : Nat × Bool :=
  match line with
  | some entry =>
    match getMessage entry with
    | some msg =>
      if isAssistantRole msg && (getItem msg KEY_USAGE).isSome then
        let tc := usageContextSum (getItem msg KEY_USAGE)
        if 0 < tc then (tc, true) else st
      else st
    | none => st
  | none => st

/-- Left fold of spCtxStep, mirroring the order of the single-pass loop. -/
def spCtxFold : Transcript → Nat × Bool → Nat × Bool
  | [], st => st
  | line :: rest, st => spCtxFold rest (spCtxStep st line)

/-- A line the session scan can skip without touching its state: an
unparseable or empty line, or a parsed line with no message object. -/
def lineHasMessageObj (line : TranscriptLine) : Bool :=
  match line with
  | some entry => (getMessage entry).isSome
  | none => false

/-- The cache key as claim C6 words it: FNV-1a 64-bit with offset basis
14695981039346656037 and prime 1099511628211, per-byte XOR then
multiply, 16-hex-digit encoding. -/
def claimC6FnvOffsetBasis : Nat := 14695981039346656037

/-- The 16-hex-digit key claim C6 predicts for a non-empty identifier. -/
def claimed_fnv1a_key (bytes : List Nat) : String :=
  hex16 (bytes.foldl (fun h b => ((h ^^^ b) * CACHE_HASH_FNV_PRIME) % 2 ^ 64)
    claimC6FnvOffsetBasis)

/-- The key with the amended offset basis — the literal constant the code
carries — written as a plain left fold for comparison with the loop. -/
def amended_fnv1a_key (bytes : List Nat) : String :=
  hex16 (bytes.foldl (fun h b => ((h ^^^ b) * CACHE_HASH_FNV_PRIME) % 2 ^ 64)
    1469598103934665603)

/-!
Helper lemmas.
-/

theorem safe_add_uint64_ok {a b : Nat} (hb : b ≤ U64_MAX) (h : a + b ≤ U64_MAX) :
    safe_add_uint64 a b = .ok (a + b) := by
  have hc : ¬ (U64_MAX - b < a) := by omega
  simp [safe_add_uint64, hc]

theorem safe_add_uint64_err {a b : Nat} (hb : b ≤ U64_MAX) (h : U64_MAX < a + b) :
    safe_add_uint64 a b = .error MccsError.overflow := by
  have hc : U64_MAX - b < a := by omega
  simp [safe_add_uint64, hc]

/-!
Claim C3 — calculate_total_tokens returns the exact four-category sum
when it fits in uint64 and the overflow error otherwise.
-/

/-- C3: for token counters that are uint64 values, calculate_total_tokens
returns Ok with the true mathematical sum exactly when that sum fits in
an unsigned 64-bit integer, and returns the overflow error (never a
wrapped value) when it does not. -/
theorem claim_C3 (t : TokenCounts)
    (h1 : t.input_tokens ≤ U64_MAX) (h2 : t.output_tokens ≤ U64_MAX)
    (h3 : t.cache_creation_tokens ≤ U64_MAX) (h4 : t.cache_read_tokens ≤ U64_MAX) :
    (t.input_tokens + t.output_tokens + t.cache_creation_tokens + t.cache_read_tokens ≤ U64_MAX →
      calculate_total_tokens t =
        .ok (t.input_tokens + t.output_tokens + t.cache_creation_tokens + t.cache_read_tokens)) ∧
    (U64_MAX < t.input_tokens + t.output_tokens + t.cache_creation_tokens + t.cache_read_tokens →
      calculate_total_tokens t = .error MccsError.overflow) := by
  constructor
  · intro h
    have e1 := safe_add_uint64_ok (a := t.input_tokens) h2 (by omega)
    have e2 := safe_add_uint64_ok (a := t.input_tokens + t.output_tokens) h3 (by omega)
    have e3 := safe_add_uint64_ok
      (a := t.input_tokens + t.output_tokens + t.cache_creation_tokens) h4 (by omega)
    simp only [calculate_total_tokens, e1, e2, e3]
  · intro h
    by_cases c1 : U64_MAX < t.input_tokens + t.output_tokens
    · simp only [calculate_total_tokens, safe_add_uint64_err h2 c1]
    · push_neg at c1
      by_cases c2 : U64_MAX < t.input_tokens + t.output_tokens + t.cache_creation_tokens
      · simp only [calculate_total_tokens, safe_add_uint64_ok h2 c1,
          safe_add_uint64_err h3 c2]
      · push_neg at c2
        simp only [calculate_total_tokens, safe_add_uint64_ok h2 c1,
          safe_add_uint64_ok h3 c2, safe_add_uint64_err h4 h]

/-- C3 witness: the theorem applied at a concrete in-range input. -/
theorem claim_C3_witness :
    calculate_total_tokens
      { input_tokens := 1, output_tokens := 2, cache_creation_tokens := 3
        cache_read_tokens := 4, total_tokens := 0 } = .ok 10 := by
  have h := (claim_C3
    { input_tokens := 1, output_tokens := 2, cache_creation_tokens := 3
      cache_read_tokens := 4, total_tokens := 0 }
    (by decide) (by decide) (by decide) (by decide)).1 (by decide)
  simpa using h

/-!
Claim C5 — cache hit characterization.
-/

/-- C5: with a session id, project dir and transcript path supplied,
should_refresh_cache reports a hit (false) exactly when the magic
matches, the stored identifiers equal the supplied ones, the record's age
is within the maximum threshold, and the transcript's current byte size
equals the stored size.  In particular any size change, or expiry, forces
a refresh. -/
theorem claim_C5 (cache : TokenCache) (s p transcript_path : String)
    (now : Int) (fs : String → Option Nat) :
    should_refresh_cache cache (some s) (some p) transcript_path now fs = false ↔
      (cache.magic = CACHE_MAGIC ∧ cache.session_id = s ∧ cache.project_dir = p ∧
       now - cache.last_update_time ≤ CACHE_MAX_AGE_S ∧
       get_file_size fs transcript_path = cache.transcript_file_size) := by
  unfold should_refresh_cache is_cache_valid
  by_cases h1 : cache.magic = CACHE_MAGIC <;>
    by_cases h2 : cache.session_id = s <;>
    by_cases h3 : cache.project_dir = p <;>
    by_cases h4 : CACHE_MAX_AGE_S < now - cache.last_update_time <;>
    by_cases h5 : get_file_size fs transcript_path = cache.transcript_file_size <;>
    simp_all [bne_iff_ne] <;> omega

/-!
Claim C7 — the double-to-uint64 guard at the upper boundary.  The claim
says conversion must fail for every value exceeding UINT64_MAX; the code
compares against (double)UINT64_MAX, which rounds to 2^64, so the double
2^64 — which exceeds UINT64_MAX — passes all guards, and the C cast of it
to uint64_t is undefined behavior.  This theorem evaluates the embedded
guard chain at that failing input: the function accepts the value and the
accepted value exceeds UINT64_MAX. -/
theorem claim_C7_failing_input :
    safe_double_to_uint64 { finite := true, val := CAST_U64_MAX_AS_DOUBLE } =
      .ok 18446744073709551616 ∧
    U64_MAX < 18446744073709551616 := by
  constructor
  · rfl
  · decide

/-!
Claim C8 — bounded lock acquisition.
-/

theorem acquireGo_attempts_le (oracle : Nat → FlockResp) :
    ∀ r a, (acquireGo oracle a r).attempts ≤ a + r + 1 := by
  intro r
  induction r with
  | zero =>
    intro a
    unfold acquireGo
    cases oracle a <;> simp
  | succ n ih =>
    intro a
    unfold acquireGo
    cases oracle a <;> simp
    have := ih (a + 1)
    omega

theorem acquireGo_all_wouldblock (oracle : Nat → FlockResp)
    (h : ∀ n, oracle n = FlockResp.wouldblock) :
    ∀ r a, (acquireGo oracle a r).outcome = .error MccsError.ioError := by
  intro r
  induction r with
  | zero =>
    intro a
    unfold acquireGo
    rw [h a]
  | succ n ih =>
    intro a
    unfold acquireGo
    rw [h a]
    exact ih (a + 1)

/-- C8: lock acquisition with the fixed 2000ms timeout and 50ms poll
interval makes at most timeout/interval + 1 flock attempts whatever the
lock does — it always terminates — and when every attempt finds the lock
held it returns the io-error result instead of hanging. -/
theorem claim_C8 (oracle : Nat → FlockResp) :
    (acquire_lock_with_timeout oracle CACHE_LOCK_TIMEOUT_MS).attempts ≤
      CACHE_LOCK_TIMEOUT_MS / CACHE_LOCK_INTERVAL_MS + 1 ∧
    ((∀ n, oracle n = FlockResp.wouldblock) →
      (acquire_lock_with_timeout oracle CACHE_LOCK_TIMEOUT_MS).outcome =
        .error MccsError.ioError) := by
  constructor
  · have h := acquireGo_attempts_le oracle
      ((CACHE_LOCK_TIMEOUT_MS + CACHE_LOCK_INTERVAL_MS - 1) / CACHE_LOCK_INTERVAL_MS) 0
    unfold acquire_lock_with_timeout
    unfold CACHE_LOCK_TIMEOUT_MS CACHE_LOCK_INTERVAL_MS at h ⊢
    norm_num at h ⊢
    omega
  · intro h
    exact acquireGo_all_wouldblock oracle h _ 0

/-- C8 witness: the theorem applied to the oracle that always reports the
lock as held. -/
theorem claim_C8_witness :
    (acquire_lock_with_timeout (fun _ => FlockResp.wouldblock)
      CACHE_LOCK_TIMEOUT_MS).attempts ≤
        CACHE_LOCK_TIMEOUT_MS / CACHE_LOCK_INTERVAL_MS + 1 ∧
    (acquire_lock_with_timeout (fun _ => FlockResp.wouldblock)
      CACHE_LOCK_TIMEOUT_MS).outcome = .error MccsError.ioError :=
  ⟨(claim_C8 (fun _ => FlockResp.wouldblock)).1,
   (claim_C8 (fun _ => FlockResp.wouldblock)).2 (fun _ => rfl)⟩

/-!
Claim C9 — calculate_percentage is total and overflow-safe.
-/

/-- C9: a zero limit short-circuits to 0 before any division, and when
the limit is non-zero but tokens * 100 exceeds the uint64 range the
function returns 100 under clamping and UINT32_MAX otherwise, never a
wrapped value. -/
theorem claim_C9 (tokens limit : Nat) (clamp : Bool) (ht : tokens ≤ U64_MAX) :
    calculate_percentage tokens 0 clamp = 0 ∧
    (limit ≠ 0 → U64_MAX < tokens * 100 →
      calculate_percentage tokens limit clamp = if clamp then 100 else U32_MAX) := by
  constructor
  · simp [calculate_percentage]
  · intro hl ho
    have htnz : tokens ≠ 0 := by
      rintro rfl
      simp [U64_MAX] at ho
    have hdiv : U64_MAX / 100 < tokens := by
      unfold U64_MAX at ho ⊢
      norm_num
      omega
    simp [calculate_percentage, safe_mul_uint64, hl, htnz, hdiv]

/-- C9 witness: the theorem applied at a token count whose product with
100 overflows, with and without a limit. -/
theorem claim_C9_witness :
    calculate_percentage (2 ^ 62) 0 false = 0 ∧
    calculate_percentage (2 ^ 62) 5 false = U32_MAX := by
  have h := claim_C9 (2 ^ 62) 5 false (by decide)
  exact ⟨h.1, by simpa using h.2 (by decide) (by decide)⟩

/-!
Concrete transcript entries used by counterexamples and witnesses.
-/

/-- A line whose message carries a usage object with input_tokens 5 and
no role. -/
def entryUsageInput5 : JVal :=
  JVal.obj [(KEY_MESSAGE, JVal.obj
    [(KEY_USAGE, JVal.obj [(KEY_INPUT, JVal.num { finite := true, val := 5 })])])]

/-- A line whose message carries a usage object with output_tokens 7. -/
def entryUsageOutput7 : JVal :=
  JVal.obj [(KEY_MESSAGE, JVal.obj
    [(KEY_USAGE, JVal.obj [(KEY_OUTPUT, JVal.num { finite := true, val := 7 })])])]

/-- A parsed line with a message object (role user) and no usage item. -/
def entryMessageNoUsage : JVal :=
  JVal.obj [(KEY_MESSAGE, JVal.obj [(KEY_ROLE, JVal.str USER_ROLE)])]

/-- An assistant line whose usage has input_tokens 5. -/
def entryAssistantInput5 : JVal :=
  JVal.obj [(KEY_MESSAGE, JVal.obj
    [(KEY_ROLE, JVal.str ASSISTANT_ROLE),
     (KEY_USAGE, JVal.obj [(KEY_INPUT, JVal.num { finite := true, val := 5 })])])]

/-- An assistant line whose message has no usage item. -/
def entryAssistantNoUsage : JVal :=
  JVal.obj [(KEY_MESSAGE, JVal.obj [(KEY_ROLE, JVal.str ASSISTANT_ROLE)])]

/-!
Claim C6 — cache key derivation.
-/

theorem fnvLoop_eq_foldl : ∀ (bytes : List Nat) (h : Nat),
    fnvLoop bytes h =
      bytes.foldl (fun acc b => ((acc ^^^ b) * CACHE_HASH_FNV_PRIME) % 2 ^ 64) h := by
  intro bytes
  induction bytes with
  | nil => intro h; rfl
  | cons b rest ih =>
    intro h
    simp only [fnvLoop, fnvStep, List.foldl]
    exact ih _

theorem hexDigits_length : ∀ k n, (hexDigits k n).length = k := by
  intro k
  induction k with
  | zero => intro n; rfl
  | succ m ih =>
    intro n
    simp [hexDigits, ih]

/-- C6 counterexample: for the session identifier "a" (byte 97), the key
the code computes differs from the key predicted by the claim's stated
FNV-1a offset basis 14695981039346656037 — the code's literal offset is
1469598103934665603, the standard constant with its final digit
missing. -/
theorem claim_C6_counterexample :
    hash_session_id (some [97]) ≠ claimed_fnv1a_key [97] := by
  decide

/-- C6 amended: for every non-empty session identifier the cache key is
the 16-hex-digit, zero-padded encoding of the FNV-1a-style hash of its
bytes seeded with the code's offset constant 1469598103934665603 (prime
1099511628211, per-byte XOR then multiply), hence deterministic and
order-sensitive; an absent or empty identifier maps to the fixed key
"default". -/
theorem claim_C6 : ∀ bytes : List Nat, bytes ≠ [] →
    hash_session_id (some bytes) = amended_fnv1a_key bytes ∧
    (hash_session_id (some bytes)).length = 16 ∧
    hash_session_id none = "default" ∧
    hash_session_id (some []) = "default" ∧
    hash_session_id (some [97, 98]) ≠ hash_session_id (some [98, 97]) := by
  intro bytes hb
  obtain ⟨b, rest, rfl⟩ : ∃ b rest, bytes = b :: rest := by
    cases bytes with
    | nil => exact absurd rfl hb
    | cons b rest => exact ⟨b, rest, rfl⟩
  refine ⟨?_, ?_, rfl, rfl, by decide⟩
  · show hex16 (fnvLoop (b :: rest) CACHE_HASH_FNV_OFFSET) = amended_fnv1a_key (b :: rest)
    rw [fnvLoop_eq_foldl]
    rfl
  · show (String.mk (hexDigits 16 (fnvLoop (b :: rest) CACHE_HASH_FNV_OFFSET))).length = 16
    have hs : (String.mk (hexDigits 16 (fnvLoop (b :: rest) CACHE_HASH_FNV_OFFSET))).length =
        (hexDigits 16 (fnvLoop (b :: rest) CACHE_HASH_FNV_OFFSET)).length := rfl
    rw [hs, hexDigits_length]

/-- C6 witness: the amended theorem applied to the identifier "a". -/
theorem claim_C6_witness :
    hash_session_id (some [97]) = amended_fnv1a_key [97] ∧
    (hash_session_id (some [97])).length = 16 ∧
    hash_session_id none = "default" ∧
    hash_session_id (some []) = "default" ∧
    hash_session_id (some [97, 98]) ≠ hash_session_id (some [98, 97]) :=
  claim_C6 [97] (by simp)

/-!
Claim C2 — which lines the session scan tolerates.
-/

theorem sessionScan_filter : ∀ (file : Transcript) (t : TokenCounts),
    sessionScan (file.filter lineHasMessageObj) t = sessionScan file t := by
  intro file
  induction file with
  | nil => intro t; rfl
  | cons line rest ih =>
    intro t
    cases line with
    | none =>
      simp only [List.filter_cons]
      have hline : lineHasMessageObj none = false := rfl
      rw [hline]
      simp only [Bool.false_eq_true, if_false, sessionScan]
      exact ih t
    | some entry =>
      cases hm : getMessage entry with
      | none =>
        simp only [List.filter_cons, lineHasMessageObj, hm, Option.isSome_none,
          Bool.false_eq_true, if_false, sessionScan]
        exact ih t
      | some msg =>
        simp only [List.filter_cons, lineHasMessageObj, hm, Option.isSome_some, if_true,
          sessionScan]
        cases extract_tokens_from_usage (getItem msg KEY_USAGE) t with
        | error e => rfl
        | ok t2 => exact ih t2

/-- C2 amended: the session scan skips, without error and without effect
on the totals, exactly the lines that fail JSON parsing (or are empty)
and the parsed lines that lack a message object: removing all such lines
leaves parse_session_tokens unchanged.  A parsed line whose message
object lacks a usage object is not tolerated — it aborts the scan with
the invalid-JSON error (see the counterexample). -/
theorem claim_C2 : ∀ file : Transcript,
    parse_session_tokens (file.filter lineHasMessageObj) = parse_session_tokens file := by
  intro file
  unfold parse_session_tokens
  rw [sessionScan_filter]

/-- C2 counterexample: a transcript whose middle line parses fine but has
a message with no usage object makes parse_session_tokens return the
invalid-JSON error, while the same transcript with that line removed
succeeds — the claim's "skipped without aborting the scan" fails for
such lines. -/
theorem claim_C2_counterexample :
    parse_session_tokens
      [some entryUsageInput5, some entryMessageNoUsage, some entryUsageOutput7] =
      .error MccsError.invalidJson ∧
    parse_session_tokens [some entryUsageInput5, some entryUsageOutput7] =
      .ok { input_tokens := 5, output_tokens := 7, cache_creation_tokens := 0
            cache_read_tokens := 0, total_tokens := 12 } := by
  constructor
  · rfl
  · rfl

/-!
Claim C4 — context derivation tracks the last assistant line.
-/

theorem lastAssistantScan_acc : ∀ (file : Transcript) (acc : Option JVal),
    lastAssistantScan file acc =
      (match mostRecentAssistant file with
       | some e => some e
       | none => acc) := by
  intro file
  induction file with
  | nil => intro acc; rfl
  | cons line rest ih =>
    intro acc
    simp only [lastAssistantScan]
    rw [ih]
    cases hmra : mostRecentAssistant rest with
    | some e =>
      simp only [mostRecentAssistant, hmra]
    | none =>
      cases line with
      | none => simp only [mostRecentAssistant, hmra]
      | some entry =>
        by_cases ha : isAssistantEntry entry
        · simp only [mostRecentAssistant, hmra, ha, if_true]
        · simp only [mostRecentAssistant, hmra, ha, Bool.false_eq_true, if_false]

/-- C4 amended: count_context_tokens never errors and returns the context
sum of the most recent line whose message role is "assistant",
irrespective of whether that line carries a usage object; when the
tracked line has no usage object the result is Ok 0 (even if an earlier
assistant line had usage), and with no assistant line at all the result
is Ok 0.  The sum read from the tracked line is the checked accumulation
of its input, cache-creation and cache-read fields, output excluded. -/
theorem claim_C4 : ∀ file : Transcript,
    count_context_tokens file =
      .ok (match mostRecentAssistant file with
           | some entry => entryContextTokens entry
           | none => 0) := by
  intro file
  unfold count_context_tokens
  rw [lastAssistantScan_acc]
  cases mostRecentAssistant file with
  | some e => rfl
  | none => rfl

/-- C4 counterexample: with an assistant line carrying usage (sum 5)
followed by an assistant line without usage, the claim predicts 5 (the
most recent assistant line *with usage present*), but the code tracks
the usage-less later line and returns 0. -/
theorem claim_C4_counterexample :
    count_context_tokens [some entryAssistantInput5, some entryAssistantNoUsage] = .ok 0 ∧
    count_context_tokens_claimC4
      [some entryAssistantInput5, some entryAssistantNoUsage] = .ok 5 := by
  constructor
  · rfl
  · rfl

/-!
Claim C10 — the context-parsed flag is the strict-positivity test of the
reported context value, on every path of the orchestrator.
-/

theorem mccs_token_path_flag_eq (hasPaths : Bool) (transcript_path : String)
    (needsSession needsContext : Bool) (cacheLoad : Except MccsError TokenCache)
    (sessionId projectDir : String) (now : Int) (fs : String → Option Nat)
    (file : Transcript) :
    (mccs_token_path hasPaths transcript_path needsSession needsContext
      cacheLoad sessionId projectDir now fs file).context_tokens_parsed =
    decide (0 < (mccs_token_path hasPaths transcript_path needsSession needsContext
      cacheLoad sessionId projectDir now fs file).context_tokens) := by
  simp only [mccs_token_path]
  repeat' split
  all_goals simp

/-- C10: on the cache-hit path, the single-pass path and the two-pass
path alike, the orchestrator reports context tokens as successfully
parsed exactly when the reported context value is strictly positive; in
particular a derived context of zero leaves the flag false, making a
zero-context transcript indistinguishable at the display interface from
one with no assistant message. -/
theorem claim_C10 (hasPaths : Bool) (transcript_path : String)
    (needsSession needsContext : Bool) (cacheLoad : Except MccsError TokenCache)
    (sessionId projectDir : String) (now : Int) (fs : String → Option Nat)
    (file : Transcript) :
    (mccs_token_path hasPaths transcript_path needsSession needsContext
      cacheLoad sessionId projectDir now fs file).context_tokens_parsed = true ↔
    0 < (mccs_token_path hasPaths transcript_path needsSession needsContext
      cacheLoad sessionId projectDir now fs file).context_tokens := by
  rw [mccs_token_path_flag_eq]
  exact decide_eq_true_iff

/-!
Claim C1 — support lemmas relating the single-pass context state machine
to the two-pass context derivation.
-/

theorem usageContextSum_pos_isSome {u : Option JVal}
    (h : 0 < usageContextSum u) : u.isSome = true := by
  cases u with
  | none => simp [usageContextSum] at h
  | some v => rfl

theorem entryContextTokens_eq_of_message {entry msg : JVal}
    (hm : getMessage entry = some msg) :
    entryContextTokens entry = usageContextSum (getItem msg KEY_USAGE) := by
  unfold entryContextTokens
  rw [hm]

theorem mostRecentAssistant_mem : ∀ (file : Transcript) (e : JVal),
    mostRecentAssistant file = some e →
    some e ∈ file ∧ isAssistantEntry e = true := by
  intro file
  induction file with
  | nil => intro e h; cases h
  | cons line rest ih =>
    intro e h
    simp only [mostRecentAssistant] at h
    cases hmra : mostRecentAssistant rest with
    | some e2 =>
      rw [hmra] at h
      simp only [Option.some.injEq] at h
      obtain ⟨hmem, hasst⟩ := ih e2 hmra
      subst h
      exact ⟨List.mem_cons_of_mem _ hmem, hasst⟩
    | none =>
      rw [hmra] at h
      cases line with
      | none => simp at h
      | some entry =>
        by_cases ha : isAssistantEntry entry = true
        · simp only [ha, if_true, Option.some.injEq] at h
          subst h
          exact ⟨List.mem_cons_self _ _, ha⟩
        · simp [ha] at h

theorem mrpc_none_of_mra_none : ∀ file : Transcript,
    mostRecentAssistant file = none → mostRecentPositiveCtx file = none := by
  intro file
  induction file with
  | nil => intro _; rfl
  | cons line rest ih =>
    intro h
    simp only [mostRecentAssistant] at h
    cases hmra : mostRecentAssistant rest with
    | some e2 => rw [hmra] at h; cases h
    | none =>
      rw [hmra] at h
      simp only [mostRecentPositiveCtx, ih hmra]
      cases line with
      | none => rfl
      | some entry =>
        cases hm : getMessage entry with
        | none => simp [hm]
        | some msg =>
          have hrole : isAssistantRole msg = false := by
            by_cases hr : isAssistantRole msg = true
            · exfalso
              have hass : isAssistantEntry entry = true := by
                unfold isAssistantEntry
                rw [hm]
                exact hr
              simp [hass] at h
            · simp at hr
              exact hr
          simp [hm, hrole]

theorem mrpc_none_of_noPositive : ∀ file : Transcript,
    (∀ entry, some entry ∈ file → isAssistantEntry entry = true →
      entryContextTokens entry = 0) →
    mostRecentPositiveCtx file = none := by
  intro file
  induction file with
  | nil => intro _; rfl
  | cons line rest ih =>
    intro h
    have hrest := fun entry hmem hasst =>
      h entry (List.mem_cons_of_mem _ hmem) hasst
    simp only [mostRecentPositiveCtx, ih hrest]
    cases line with
    | none => rfl
    | some entry =>
      cases hm : getMessage entry with
      | none => simp [hm]
      | some msg =>
        by_cases hrole : isAssistantRole msg = true
        · have hasst : isAssistantEntry entry = true := by
            unfold isAssistantEntry
            rw [hm]
            exact hrole
          have hzero : entryContextTokens entry = 0 :=
            h entry (List.mem_cons_self _ _) hasst
          rw [entryContextTokens_eq_of_message hm] at hzero
          simp [hm, hzero]
        · simp at hrole
          simp [hm, hrole]

theorem mrpc_cons_head (entry : JVal) (rest : Transcript)
    (hnone : mostRecentPositiveCtx rest = none)
    (ha : isAssistantEntry entry = true) (hpos : 0 < entryContextTokens entry) :
    mostRecentPositiveCtx (some entry :: rest) = some (entryContextTokens entry) := by
  simp only [mostRecentPositiveCtx, hnone]
  cases hm : getMessage entry with
  | none =>
    unfold isAssistantEntry at ha
    rw [hm] at ha
    cases ha
  | some msg =>
    have hrole : isAssistantRole msg = true := by
      unfold isAssistantEntry at ha
      rw [hm] at ha
      exact ha
    have hctx := entryContextTokens_eq_of_message hm
    rw [hctx] at hpos
    have hsome := usageContextSum_pos_isSome hpos
    rw [hctx]
    simp [hm, hrole, hsome, hpos]

theorem mrpc_of_mra_pos : ∀ (file : Transcript) (e : JVal),
    mostRecentAssistant file = some e → 0 < entryContextTokens e →
    mostRecentPositiveCtx file = some (entryContextTokens e) := by
  intro file
  induction file with
  | nil => intro e h; cases h
  | cons line rest ih =>
    intro e h hpos
    simp only [mostRecentAssistant] at h
    cases hmra : mostRecentAssistant rest with
    | some e2 =>
      rw [hmra] at h
      have he : e2 = e := by simpa using h
      rw [← he] at hpos ⊢
      simp only [mostRecentPositiveCtx, ih e2 hmra hpos]
    | none =>
      rw [hmra] at h
      cases line with
      | none => simp at h
      | some entry =>
        by_cases ha : isAssistantEntry entry = true
        · simp only [ha, if_true] at h
          have he : entry = e := by simpa using h
          rw [← he] at hpos ⊢
          exact mrpc_cons_head entry rest (mrpc_none_of_mra_none rest hmra) ha hpos
        · simp [ha] at h

theorem spCtxFold_char : ∀ (file : Transcript) (p : Nat × Bool),
    spCtxFold file p =
      (match mostRecentPositiveCtx file with
       | some c => (c, true)
       | none => p) := by
  intro file
  induction file with
  | nil => intro p; rfl
  | cons line rest ih =>
    intro p
    simp only [spCtxFold]
    rw [ih]
    cases hmr : mostRecentPositiveCtx rest with
    | some c => simp only [mostRecentPositiveCtx, hmr]
    | none =>
      simp only [mostRecentPositiveCtx, hmr]
      cases line with
      | none => rfl
      | some entry =>
        cases hm : getMessage entry with
        | none => simp [spCtxStep, hm]
        | some msg =>
          by_cases hcond : (isAssistantRole msg && (getItem msg KEY_USAGE).isSome) = true
          · by_cases hpos : 0 < usageContextSum (getItem msg KEY_USAGE)
            · simp [spCtxStep, hm, hcond, hpos]
            · simp [spCtxStep, hm, hcond, hpos]
          · simp [spCtxStep, hm, hcond]

theorem singlePassScan_eq : ∀ (file : Transcript),
    (∀ entry msg, some entry ∈ file → getMessage entry = some msg →
      (getItem msg KEY_USAGE).isSome = true) →
    ∀ st : SinglePassState,
      singlePassScan true true file st =
        (match sessionScan file st.tokens with
         | .error e => .error e
         | .ok t =>
           .ok { tokens := t
                 lastAssistantCtx :=
                   (spCtxFold file (st.lastAssistantCtx, st.foundAssistant)).1
                 foundAssistant :=
                   (spCtxFold file (st.lastAssistantCtx, st.foundAssistant)).2 }) := by
  intro file
  induction file with
  | nil => intro _ st; rfl
  | cons line rest ih =>
    intro hU st
    have hUrest : ∀ entry msg, some entry ∈ rest → getMessage entry = some msg →
        (getItem msg KEY_USAGE).isSome = true :=
      fun entry msg hmem hm => hU entry msg (List.mem_cons_of_mem _ hmem) hm
    cases line with
    | none =>
      simp only [singlePassScan, sessionScan, spCtxFold, spCtxStep]
      exact ih hUrest st
    | some entry =>
      cases hm : getMessage entry with
      | none =>
        simp only [singlePassScan, sessionScan, spCtxFold, spCtxStep, hm]
        exact ih hUrest st
      | some msg =>
        have husage : (getItem msg KEY_USAGE).isSome = true :=
          hU entry msg (List.mem_cons_self _ _) hm
        simp only [singlePassScan, sessionScan, spCtxFold, spCtxStep, hm, husage,
          Bool.true_and, Bool.and_true, if_true]
        cases hex : extract_tokens_from_usage (getItem msg KEY_USAGE) st.tokens with
        | error e => simp [hex]
        | ok t2 =>
          simp only [hex]
          by_cases hrole : isAssistantRole msg = true
          · by_cases hpos : 0 < usageContextSum (getItem msg KEY_USAGE)
            · simpa [hrole, hpos] using
                ih hUrest
                  { tokens := t2
                    lastAssistantCtx := usageContextSum (getItem msg KEY_USAGE)
                    foundAssistant := true }
            · simpa [hrole, hpos] using
                ih hUrest { st with tokens := t2 }
          · simpa [hrole] using ih hUrest { st with tokens := t2 }

/-- C1 amended: single-pass extraction with both outputs requested agrees
with the two independent scans provided (a) every line carrying a message
object also carries a usage item — otherwise the two-pass session scan
errors on a line the single-pass scan skips — and (b) either the most
recent assistant line has a strictly positive context sum, or no
assistant line does — otherwise the single-pass scan reports an earlier
assistant line's positive sum while the two-pass scan reports the last
assistant line's.  Under these conditions the single-pass call fails with
exactly the error of parse_session_tokens, and on success returns exactly
its counts paired with exactly the count_context_tokens value. -/
theorem claim_C1 (file : Transcript)
    (hU : ∀ entry msg, some entry ∈ file → getMessage entry = some msg →
      (getItem msg KEY_USAGE).isSome = true)
    (hC : (∀ e, mostRecentAssistant file = some e → 0 < entryContextTokens e) ∨
          (∀ entry, some entry ∈ file → isAssistantEntry entry = true →
            entryContextTokens entry = 0)) :
    (∀ err, parse_session_tokens file = .error err →
      parse_tokens_single_pass file true true = .error err) ∧
    (∀ t c, parse_session_tokens file = .ok t → count_context_tokens file = .ok c →
      parse_tokens_single_pass file true true = .ok (some t, some c)) := by
  have hched : count_context_tokens file =
      .ok (match mostRecentAssistant file with
           | some e => entryContextTokens e
           | none => 0) := by
    unfold count_context_tokens
    rw [lastAssistantScan_acc]
    cases mostRecentAssistant file with
    | some e => rfl
    | none => rfl
  have hctxval :
      (match mostRecentPositiveCtx file with | some c => c | none => 0) =
      (match mostRecentAssistant file with
       | some e => entryContextTokens e
       | none => 0) := by
    rcases hC with hL | hR
    · cases hmra : mostRecentAssistant file with
      | none => rw [mrpc_none_of_mra_none file hmra]
      | some e => rw [mrpc_of_mra_pos file e hmra (hL e hmra)]
    · rw [mrpc_none_of_noPositive file hR]
      cases hmra : mostRecentAssistant file with
      | none => rfl
      | some e =>
        obtain ⟨hmem, hasst⟩ := mostRecentAssistant_mem file e hmra
        simp [hR e hmem hasst]
  have hscan := singlePassScan_eq file hU
    { tokens := init_token_counts, lastAssistantCtx := 0, foundAssistant := false }
  have hfold := spCtxFold_char file (0, false)
  constructor
  · intro err herr
    unfold parse_session_tokens at herr
    unfold parse_tokens_single_pass
    rw [if_neg (by simp), hscan]
    cases hss : sessionScan file init_token_counts with
    | error e =>
      rw [hss] at herr
      have he : e = err := by simpa using herr
      subst he
      rfl
    | ok t =>
      rw [hss] at herr
      cases hct : calculate_total_tokens t with
      | error e =>
        simp only [hct, Except.error.injEq] at herr
        subst herr
        simp [hct]
      | ok total =>
        simp only [hct] at herr
        simp at herr
  · intro t0 c hok hcc
    unfold parse_session_tokens at hok
    rw [hched] at hcc
    have hc : c = (match mostRecentAssistant file with
                   | some e => entryContextTokens e
                   | none => 0) := by
      simpa using hcc.symm
    subst hc
    unfold parse_tokens_single_pass
    rw [if_neg (by simp), hscan]
    cases hss : sessionScan file init_token_counts with
    | error e =>
      rw [hss] at hok
      simp at hok
    | ok t =>
      rw [hss] at hok
      cases hct : calculate_total_tokens t with
      | error e =>
        simp only [hct] at hok
        simp at hok
      | ok total =>
        simp only [hct] at hok
        have ht0 : t0 = { t with total_tokens := total } := by
          simpa using hok.symm
        subst ht0
        rw [← hctxval]
        cases hmr : mostRecentPositiveCtx file with
        | some cc => simp [hct, hfold, hmr]
        | none => simp [hct, hfold, hmr]

/-- C1 counterexample: on a transcript whose last assistant line lacks a
usage object, single-pass extraction succeeds with session count 5 and
context 5, while the independent scans give an invalid-JSON error for the
session totals and context 0 — the two modes do not produce identical
results. -/
theorem claim_C1_counterexample :
    parse_tokens_single_pass
      [some entryAssistantInput5, some entryAssistantNoUsage] true true =
      .ok (some { input_tokens := 5, output_tokens := 0, cache_creation_tokens := 0
                  cache_read_tokens := 0, total_tokens := 5 }, some 5) ∧
    parse_session_tokens [some entryAssistantInput5, some entryAssistantNoUsage] =
      .error MccsError.invalidJson ∧
    count_context_tokens [some entryAssistantInput5, some entryAssistantNoUsage] =
      .ok 0 := by
  refine ⟨rfl, rfl, rfl⟩

/-- C1 witness: the amended theorem applied to a one-line transcript
satisfying both side conditions. -/
theorem claim_C1_witness :
    parse_tokens_single_pass [some entryAssistantInput5] true true =
      .ok (some { input_tokens := 5, output_tokens := 0, cache_creation_tokens := 0
                  cache_read_tokens := 0, total_tokens := 5 }, some 5) := by
  have h := claim_C1 [some entryAssistantInput5]
    (by
      intro entry msg hmem hm
      have he : entry = entryAssistantInput5 := by simpa using hmem
      subst he
      have hm2 : some (JVal.obj
          [(KEY_ROLE, JVal.str ASSISTANT_ROLE),
           (KEY_USAGE, JVal.obj [(KEY_INPUT, JVal.num { finite := true, val := 5 })])]) =
          some msg := hm
      cases hm2
      rfl)
    (Or.inl (by
      intro e he
      have he2 : some entryAssistantInput5 = some e := he
      cases he2
      decide))
  exact h.2 _ _ rfl rfl

end MiniCcstatus
